import Mathlib

/-!
Verification of the workspace state synchronizer in
`examples/yashiki-workspace/plugins/yashiki_bridge.py`.

The synchronizer keeps an in-memory world model (displays, windows, focus,
slot assignment) driven by a line stream of JSON events, and reconciles a
set of rendered elements against it.  Python dicts are modelled as
insertion-ordered association lists (assignment of an existing key replaces
in place, of a new key appends; `del`/`pop` removes the entry), which is
faithful to CPython dict semantics.  Python `set` iteration inside
`ensure_display_items` is modelled in ascending order; the properties
proved below do not depend on a particular set order, only on the two loop
bodies running one after the other.  JSON identifier values (numbers or
strings) are modelled by `JId`, and Python's `str()` coercion by
`JId.toStr`.
-/

/-- A JSON scalar used as a display/window identifier: either a number or a
string.  `yashiki_bridge.py` applies `str()` to every id before using it as
a dict key. -/
inductive JId where
  | num (n : Int)
  | str (s : String)
deriving DecidableEq, Repr

/-- Python `str()` on an id value. -/
def JId.toStr : JId → String
  | .num n => toString n
  | .str s => s

/-- Per-display record: `{"visible_tags": ...}` (yashiki_bridge.py lines 377-380). -/
structure DInfo where
  visible_tags : Nat
deriving DecidableEq, Repr

/-- Per-window record: `{"tags": ..., "output_id": ...}` (lines 381-384). -/
structure WInfo where
  tags : Nat
  output_id : String
deriving DecidableEq, Repr

/-- Python dict as insertion-ordered association list. -/
abbrev Dict (α : Type) := List (String × α)

/-- Python `d[k] = v`: replace in place when the key exists, else append. -/
def upsert {α : Type} (k : String) (v : α) (m : Dict α) : Dict α :=
  if k ∈ m.map Prod.fst then
    m.map (fun p => if p.1 = k then (k, v) else p)
  else
    m ++ [(k, v)]

/-- Python `d.pop(k, None)` / `del d[k]`. -/
def eraseKey {α : Type} (k : String) (m : Dict α) : Dict α :=
  m.filter (fun p => p.1 ≠ k)

/-- Python `d.get(k)` / `d[k]`. -/
def lookupKey {α : Type} (k : String) (m : Dict α) : Option α :=
  (m.find? (fun p => p.1 = k)).map Prod.snd

/-- Lexicographic ≤ on code-point sequences, the order Python's `sorted`
uses for strings. -/
def chLe : List Char → List Char → Bool
  | [], _ => true
  | _ :: _, [] => false
  | a :: as, b :: bs => if a < b then true else if b < a then false else chLe as bs

/-- Python string comparison (`sorted` over display identities). -/
def strLe (a b : String) : Bool := chLe a.data b.data

/-- `MAX_DISPLAYS = 3` (line 23). -/
def MAX_DISPLAYS : Nat := 3

/-- `NUM_TAGS = 10` (line 24). -/
def NUM_TAGS : Nat := 10

/-- `INTERNAL_DISPLAY_ID = "1"` (line 25). -/
def INTERNAL_DISPLAY_ID : String := "1"

/-- Size preset selected per display (`SIZES["compact"]` vs
`SIZES["default"]`, lines 42-45); only the identity of the preset and its
`show_mode` flag matter to the reconciliation structure. -/
inductive Size where
  | dflt
  | compact
deriving DecidableEq, Repr

/-- `sizes_for_display` (lines 187-189). -/
def sizes_for_display (did : String) : Size :=
  if did = INTERNAL_DISPLAY_ID then .compact else .dflt

/-- `SIZES[..]["show_mode"]` (lines 37, 44). -/
def show_mode : Size → Bool
  | .dflt => true
  | .compact => false

/-- The session state dict built in `run` (lines 443-452), restricted to the
fields the synchronizer mutates. -/
structure World where
  displays : Dict DInfo
  windows : Dict WInfo
  focused : String
  slot_assignment : List (Nat × String)
  created_slots : List Nat
  slot_sizes : List (Nat × Size)
deriving DecidableEq, Repr

/-- The fresh state of lines 443-452. -/
def initState : World :=
  { displays := []
    windows := []
    focused := "0"
    slot_assignment := []
    created_slots := []
    slot_sizes := [] }

/-- The first loop of `assign_slots` (lines 148-150): delete every mapping
whose display is no longer live; the surviving mappings keep their order. -/
def liveMappings (current : List String) (assignment : List (Nat × String)) :
    List (Nat × String) :=
  assignment.filter (fun p => decide (p.2 ∈ current))

/-- `free_slots` (line 153): the slots `1..MAX_DISPLAYS` that are not keys
of the pruned assignment, in ascending order. -/
def freeSlots (a1 : List (Nat × String)) : List Nat :=
  (List.range' 1 MAX_DISPLAYS).filter (fun s => decide (s ∉ a1.map Prod.fst))

/-- `sorted(current_displays - assigned)` (line 154): live displays not yet
assigned, in ascending identity order. -/
def todoDisplays (current : List String) (a1 : List (Nat × String)) :
    List String :=
  List.insertionSort (fun a b => strLe a b = true)
    (current.filter (fun d => decide (d ∉ a1.map Prod.snd)))

/-- `assign_slots` (lines 143-157): prune dead mappings, then the pairing
loop (lines 154-157) repeatedly pops the lowest free slot for each sorted
unassigned display — i.e. it appends `free_slots ⨯ todo` pairs, stopping
when either list runs out. -/
def assign_slots (displays : Dict DInfo) (assignment : List (Nat × String)) :
    List (Nat × String) :=
  let current := displays.map Prod.fst
  let a1 := liveMappings current assignment
  a1 ++ (freeSlots a1).zip (todoDisplays current a1)

/-- A command issued to the render target by `ensure_display_items`:
`ranma add <name> ...` (with the container's `display=<did>` attribute when
present) or `ranma remove <name>`.  The slot number the command belongs to
is recorded alongside the literal element name. -/
inductive Cmd where
  | add (slot : Nat) (name : String) (display : Option String)
  | remove (slot : Nat) (name : String)
deriving DecidableEq, Repr

/-- Whether a command is an `add`. -/
def Cmd.isAdd : Cmd → Bool
  | .add _ _ _ => true
  | .remove _ _ => false

/-- Whether a command is a `remove`. -/
def Cmd.isRemove : Cmd → Bool
  | .add _ _ _ => false
  | .remove _ _ => true

/-- The slot a command targets. -/
def Cmd.slot : Cmd → Nat
  | .add s _ _ => s
  | .remove s _ => s

/-- The `ranma add` calls for one tag cell of a slot (lines 218-271):
box, pill background, centered label row, label, underline row, indicator. -/
def tagAddCmds (slot tag : Nat) : List Cmd :=
  let b := "ws.d" ++ toString slot ++ "." ++ toString tag
  [Cmd.add slot b none,
   Cmd.add slot (b ++ ".bg") none,
   Cmd.add slot (b ++ ".c") none,
   Cmd.add slot (b ++ ".c.label") none,
   Cmd.add slot (b ++ ".ul") none,
   Cmd.add slot (b ++ ".ul.ind") none]

/-- The full `ranma add` sequence for a newly created slot (lines 198-298):
container row (carrying `display=did`), then NUM_TAGS tag cells, then the
mode indicator when the size preset shows it. -/
def slotAddCmds (slot : Nat) (did : String) : List Cmd :=
  let sz := sizes_for_display did
  let base := "ws.d" ++ toString slot
  [Cmd.add slot base (some did)]
    ++ ((List.range' 1 NUM_TAGS).map (tagAddCmds slot)).flatten
    ++ (if show_mode sz then
          [Cmd.add slot (base ++ ".sep") none,
           Cmd.add slot (base ++ ".mode") none,
           Cmd.add slot (base ++ ".mode.icon") none]
        else [])

/-- A Python `set` of small naturals, listed in ascending order (the model
of set iteration used throughout). -/
def natSetAsc (l : List Nat) : List Nat :=
  List.insertionSort (· ≤ ·) l.dedup

/-- `slot_assignment[slot]` inside `ensure_display_items` (line 199); the
slot is always a key there, so the default is never observed. -/
def slotDisplay (slot : Nat) (assignment : List (Nat × String)) : String :=
  ((assignment.find? (fun p => p.1 = slot)).map Prod.snd).getD ""

/-- `ensure_display_items` (lines 192-304): create elements for slots that
entered the assignment, then remove elements of slots that left it, and
record the new created-slot set and per-slot sizes.  Returns the mutated
state together with the ordered list of commands sent to the render
target. -/
def ensure_display_items (w : World) : World × List Cmd :=
  let active := natSetAsc (w.slot_assignment.map Prod.fst)
  let existing := w.created_slots
  let newSlots := active.filter (fun s => decide (s ∉ existing))
  let adds := (newSlots.map
    (fun s => slotAddCmds s (slotDisplay s w.slot_assignment))).flatten
  let sizes1 := newSlots.foldl
    (fun m s => m.filter (fun p => p.1 ≠ s)
      ++ [(s, sizes_for_display (slotDisplay s w.slot_assignment))])
    w.slot_sizes
  let gone := existing.filter (fun s => decide (s ∉ active))
  let removes := gone.map (fun s => Cmd.remove s ("ws.d" ++ toString s))
  let sizes2 := gone.foldl (fun m s => m.filter (fun p => p.1 ≠ s)) sizes1
  ({ w with created_slots := active, slot_sizes := sizes2 }, adds ++ removes)

/-- The three mutually exclusive visual states of a tag cell
(`update_all`, lines 337-372). -/
inductive TagState where
  | active
  | occupied
  | vacant
deriving DecidableEq, Repr

/-- The per-display union of window tag bitmasks (`occupied_per_display`,
lines 313-316): bitwise OR of `tags` over all windows whose `output_id`
equals the display. -/
def occupied_per_display (windows : Dict WInfo) (did : String) : Nat :=
  windows.foldl
    (fun acc p => if p.2.output_id = did then acc ||| p.2.tags else acc) 0

/-- The classification of one tag cell in `update_all` (lines 331-372):
`is_active` wins, else `is_occupied`, else vacant. -/
def classifyTag (visible_tags display_occupied tag_num : Nat) : TagState :=
  let bitmask := 2 ^ (tag_num - 1)
  if visible_tags &&& bitmask ≠ 0 then .active
  else if display_occupied &&& bitmask ≠ 0 then .occupied
  else .vacant

/-- The tag state `update_all` renders for an occupied slot's tag: wiring
of lines 324-335 (display lookup with `{}` default, `visible_tags` default
0, occupied union over windows). -/
def update_all_tag_state (w : World) (slot tag_num : Nat) : TagState :=
  let did := slotDisplay slot w.slot_assignment
  let visible_tags := ((lookupKey did w.displays).map DInfo.visible_tags).getD 0
  let display_occupied := occupied_per_display w.windows did
  classifyTag visible_tags display_occupied tag_num

/-- A display record inside a `snapshot` event: `{id, visible_tags}`. -/
structure SnapDisplay where
  id : JId
  visible_tags : Nat
deriving DecidableEq, Repr

/-- A window record inside a `snapshot` / `window_created` /
`window_updated` event: `{id, tags, output_id}`. -/
structure SnapWindow where
  id : JId
  tags : Nat
  output_id : JId
deriving DecidableEq, Repr

/-- A `snapshot` event payload. -/
structure Snapshot where
  displays : List SnapDisplay
  windows : List SnapWindow
  focused_display_id : JId
deriving DecidableEq, Repr

/-- An incremental event as dispatched by `process_event` (lines 388-421).
`other` stands for any event whose `type` is none of the recognized kinds
(the final `else: return False` branch). -/
inductive Event where
  | tags_changed (display_id : JId) (visible_tags : Nat)
  | display_focused (display_id : JId)
  | window_created (window : SnapWindow)
  | window_updated (window : SnapWindow)
  | window_destroyed (window_id : JId)
  | display_added (display : SnapDisplay) (is_focused : Bool)
  | display_updated (display : SnapDisplay) (is_focused : Bool)
  | display_removed (display_id : JId)
  | other
deriving DecidableEq, Repr

/-- `process_snapshot` (lines 375-386): rebuild the displays and windows
dicts from the snapshot lists (`str()` applied to every id; a dict
comprehension with duplicate keys behaves like repeated assignment) and set
the focused display. -/
def process_snapshot (ev : Snapshot) (w : World) : World :=
  { w with
    displays := ev.displays.foldl
      (fun m d => upsert d.id.toStr ⟨d.visible_tags⟩ m) []
    windows := ev.windows.foldl
      (fun m wi => upsert wi.id.toStr ⟨wi.tags, wi.output_id.toStr⟩ m) []
    focused := ev.focused_display_id.toStr }

/-- The shared body of the `display_added` / `display_updated` branch
(lines 405-411). -/
def applyDisplayUpsert (d : SnapDisplay) (is_focused : Bool) (w : World) :
    World :=
  let w1 := { w with displays := upsert d.id.toStr ⟨d.visible_tags⟩ w.displays }
  let w2 := if is_focused then { w1 with focused := d.id.toStr } else w1
  let w3 := { w2 with slot_assignment := assign_slots w2.displays w2.slot_assignment }
  (ensure_display_items w3).1

/-- The `display_removed` branch (lines 412-418). -/
def applyDisplayRemoved (display_id : JId) (w : World) : World :=
  let removed_id := display_id.toStr
  let ds := eraseKey removed_id w.displays
  let f := if w.focused = removed_id then
      match ds with
      | [] => w.focused
      | p :: _ => p.1
    else w.focused
  let w1 := { w with displays := ds, focused := f }
  let w2 := { w1 with slot_assignment := assign_slots w1.displays w1.slot_assignment }
  (ensure_display_items w2).1

/-- `process_event` (lines 388-421): apply one incremental event, returning
the new state and the function's boolean result (`True` unless the event
kind is unrecognized). -/
def process_event (ev : Event) (w : World) : World × Bool :=
  match ev with
  | .tags_changed display_id visible_tags =>
    let did := display_id.toStr
    if did ∈ w.displays.map Prod.fst then
      ({ w with displays := upsert did ⟨visible_tags⟩ w.displays }, true)
    else (w, true)
  | .display_focused display_id => ({ w with focused := display_id.toStr }, true)
  | .window_created wi =>
    ({ w with windows := upsert wi.id.toStr ⟨wi.tags, wi.output_id.toStr⟩ w.windows },
     true)
  | .window_updated wi =>
    ({ w with windows := upsert wi.id.toStr ⟨wi.tags, wi.output_id.toStr⟩ w.windows },
     true)
  | .window_destroyed window_id =>
    ({ w with windows := eraseKey window_id.toStr w.windows }, true)
  | .display_added d f => (applyDisplayUpsert d f w, true)
  | .display_updated d f => (applyDisplayUpsert d f w, true)
  | .display_removed display_id => (applyDisplayRemoved display_id w, true)
  | .other => (w, false)

/-- The `snapshot` branch of the loop body of `run` (lines 463-466):
`process_snapshot`, then `assign_slots`, then `ensure_display_items`. -/
def applySnapshotFull (s : Snapshot) (w : World) : World :=
  let w1 := process_snapshot s w
  let w2 := { w1 with slot_assignment := assign_slots w1.displays w1.slot_assignment }
  (ensure_display_items w2).1

/-- One inbound line of the subscription stream, as seen by the loop body
of `run` (lines 454-471): not JSON at all, a JSON value without a `type`
key, a snapshot, or an incremental event. -/
inductive LineInput where
  | notJson
  | jsonNoType
  | jsonSnapshot (s : Snapshot)
  | jsonEvent (e : Event)

/-- Outcome of the loop body of `run` for one line: the loop continues with
a possibly updated state after skipping the render pass, continues after a
render pass, or the body raises and the whole session's read loop aborts
(the `except Exception` handler at line 475 sits outside the `for`). -/
inductive StepOutcome where
  | skipped (w : World)
  | rendered (w : World)
  | crashed
deriving Repr

/-- The loop body of `run` (lines 454-471).  `json.JSONDecodeError` is
caught and the line skipped; reading `event["type"]` from a JSON value that
lacks it raises `KeyError`, which no inner handler catches, so the read
loop aborts.  A snapshot or a state-changing event ends with `update_all`;
an unrecognized event skips it. -/
def runLineStep (line : LineInput) (w : World) : StepOutcome :=
  match line with
  | .notJson => .skipped w
  | .jsonNoType => .crashed
  | .jsonSnapshot s => .rendered (applySnapshotFull s w)
  | .jsonEvent e =>
    let (w1, changed) := process_event e w
    if changed then .rendered w1 else .skipped w1

/-- A one-display state whose display is focused and rendered. -/
def c6state : World :=
  { displays := [("1", ⟨0⟩)]
    windows := []
    focused := "1"
    slot_assignment := [(1, "1")]
    created_slots := [1]
    slot_sizes := [(1, .compact)] }

/-- Well-formedness invariant maintained by the event loop: display keys
are pairwise distinct, and the slot assignment has pairwise-distinct slots
and pairwise-distinct displays. -/
def WF (w : World) : Prop :=
  (w.displays.map Prod.fst).Nodup ∧
    (w.slot_assignment.map Prod.fst).Nodup ∧
    (w.slot_assignment.map Prod.snd).Nodup

/-- Folding the event processor over a list of events. -/
def applyEvents (es : List Event) (w : World) : World :=
  es.foldl (fun w e => (process_event e w).1) w

/-- A state with a stale rendered slot (slot 1 was created, its display is
gone) and a new assignment (slot 2 entered). -/
def c5state : World :=
  { displays := [("B", ⟨0⟩)]
    windows := []
    focused := "B"
    slot_assignment := [(2, "B")]
    created_slots := [1]
    slot_sizes := [(1, .compact)] }

/-- A state whose slot 1 stays in the assignment key set (now mapped to
display "B") while its elements were created earlier, possibly for a
different display. -/
def c5stale : World :=
  { displays := [("B", ⟨0⟩)]
    windows := []
    focused := "B"
    slot_assignment := [(1, "B")]
    created_slots := [1]
    slot_sizes := [(1, .compact)] }

/-- The canonical incremental event sequence that turns the current world
into the one described by snapshot `s2`: destroy every tracked window,
remove every tracked display, add each display of `s2`, create each window
of `s2`, and finally focus `s2`'s focused display. -/
def reconstructEvents (w : World) (s2 : Snapshot) : List Event :=
  (w.windows.map Prod.fst).map (fun k => Event.window_destroyed (.str k))
    ++ (w.displays.map Prod.fst).map (fun k => Event.display_removed (.str k))
    ++ s2.displays.map (fun d => Event.display_added d false)
    ++ s2.windows.map Event.window_created
    ++ [Event.display_focused s2.focused_display_id]

/-! ## General lemmas -/

/-- Bit test via masking: `x &&& (1 << (t-1)) != 0` in the source equals
`Nat.testBit`. -/
theorem and_pow_ne_zero_iff (n i : Nat) :
    (n &&& 2 ^ i ≠ 0) ↔ n.testBit i = true := by
  rw [Nat.and_two_pow]
  have h2 : (2 : Nat) ^ i ≠ 0 := by positivity
  rcases h : n.testBit i <;> simp [h, h2]

/-! ## C2: tag classification -/

/-- C2: for every state, slot and tag index, `update_all` classifies the
tag into exactly one of active/occupied/vacant with the precedence: active
iff the bit is set in the slot display's `visible_tags`; occupied iff not
active and the OR of `tags` over windows on that display has the bit;
vacant otherwise. -/
theorem update_all_tag_classification (w : World) (slot tag_num : Nat) :
    (update_all_tag_state w slot tag_num = .active ↔
      (((lookupKey (slotDisplay slot w.slot_assignment) w.displays).map
          DInfo.visible_tags).getD 0).testBit (tag_num - 1) = true)
    ∧ (update_all_tag_state w slot tag_num = .occupied ↔
      (¬ (((lookupKey (slotDisplay slot w.slot_assignment) w.displays).map
            DInfo.visible_tags).getD 0).testBit (tag_num - 1) = true
        ∧ (occupied_per_display w.windows
            (slotDisplay slot w.slot_assignment)).testBit (tag_num - 1) = true))
    ∧ (update_all_tag_state w slot tag_num = .vacant ↔
      (¬ (((lookupKey (slotDisplay slot w.slot_assignment) w.displays).map
            DInfo.visible_tags).getD 0).testBit (tag_num - 1) = true
        ∧ ¬ (occupied_per_display w.windows
            (slotDisplay slot w.slot_assignment)).testBit (tag_num - 1) = true)) := by
  unfold update_all_tag_state classifyTag
  set vt := ((lookupKey (slotDisplay slot w.slot_assignment) w.displays).map
    DInfo.visible_tags).getD 0 with hvt
  set oc := occupied_per_display w.windows (slotDisplay slot w.slot_assignment)
  by_cases ha : vt &&& 2 ^ (tag_num - 1) ≠ 0 <;>
    by_cases ho : oc &&& 2 ^ (tag_num - 1) ≠ 0 <;>
      simp only [ha, ho, if_true, if_false, ite_true, ite_false, if_pos, if_neg,
        not_false_eq_true, not_true_eq_false] <;>
    simp_all [← and_pow_ne_zero_iff]

/-! ## C4: bad line handling -/

/-- C4 counterexample: a well-formed JSON line missing the `type` field
does not leave the stream running — reading `event["type"]` raises
`KeyError`, which escapes the inner handler and aborts the session's read
loop, contradicting the claim that such a line is discarded with processing
continuing. -/
theorem missing_type_field_aborts_stream :
    runLineStep .jsonNoType initState = .crashed := rfl

/-- C4 amended: a line that is not decodable JSON is skipped and the loop
continues with the state untouched, but a JSON line lacking the `type`
field raises and terminates the session's read loop. -/
theorem bad_line_handling (w : World) :
    runLineStep .notJson w = .skipped w ∧ runLineStep .jsonNoType w = .crashed :=
  ⟨rfl, rfl⟩

/-- Witness for `bad_line_handling` at a concrete state. -/
theorem bad_line_handling_witness :
    runLineStep .notJson initState = .skipped initState ∧
      runLineStep .jsonNoType initState = .crashed :=
  bad_line_handling initState

/-! ## C7: return value of process_event -/

/-- C7 counterexample: a `tags_changed` event for an unknown display leaves
every field of the state unchanged, yet `process_event` returns `True`,
contradicting the claim that the result is true only when observable state
changed. -/
theorem process_event_true_without_change :
    (process_event (.tags_changed (.num 5) 3) initState).1 = initState ∧
      (process_event (.tags_changed (.num 5) 3) initState).2 = true := by
  constructor <;> rfl

/-- C7 amended: `process_event` returns true exactly when the event kind is
recognized; recognized events that change nothing (stale display or window
references) still return true, so the caller re-renders anyway. -/
theorem process_event_true_iff_recognized (w : World) (e : Event) :
    (process_event e w).2 = true ↔ e ≠ .other := by
  cases e <;> simp [process_event]
  split <;> simp

/-! ## C10: identifier coercion -/

/-- C10: every id is passed through `str()` before use as a key, so an
event carrying the JSON number 1 is processed identically to one carrying
the JSON string "1"; concretely, `tags_changed` with numeric id updates a
display added with string id, and `window_destroyed` with numeric id
removes a window created with string id. -/
theorem id_string_coercion :
    (∀ (w : World) (v : Nat),
      process_event (.tags_changed (.num 1) v) w =
        process_event (.tags_changed (.str "1") v) w)
    ∧ (∀ w : World,
      process_event (.window_destroyed (.num 1)) w =
        process_event (.window_destroyed (.str "1")) w)
    ∧ ((process_event (.tags_changed (.num 1) 5)
          (process_event (.display_added ⟨.str "1", 0⟩ false) initState).1).1.displays
        = [("1", ⟨5⟩)])
    ∧ ((process_event (.window_destroyed (.num 1))
          (process_event (.window_created ⟨.str "1", 3, .str "2"⟩) initState).1).1.windows
        = []) := by
  have h : (JId.num 1).toStr = (JId.str "1").toStr := by decide
  refine ⟨fun w v => ?_, fun w => ?_, by decide, by decide⟩ <;>
    simp only [process_event, h]

/-! ## C6: focus fallback on display removal -/

/-- C6 counterexample: removing the last remaining, focused display leaves
`focused_display` equal to the removed display's identity — the `and
state["displays"]` guard skips the reassignment — contradicting the claim
that focus becomes an empty sentinel distinct from the removed id. -/
theorem focus_keeps_removed_id_when_no_display_left :
    ((process_event (.display_removed (.str "1")) c6state).1.displays = [] ∧
      (process_event (.display_removed (.str "1")) c6state).1.focused = "1") := by
  constructor <;> rfl

/-- C6 amended: when the focused display is removed and other displays
remain, focus moves to one of them (the first in insertion order); when no
display remains, `focused_display` is left holding the removed display's
identity. -/
theorem display_removed_focus_fallback (w : World) (r : JId) :
    (w.focused = r.toStr → eraseKey r.toStr w.displays ≠ [] →
      (process_event (.display_removed r) w).1.focused ∈
        (eraseKey r.toStr w.displays).map Prod.fst)
    ∧ (eraseKey r.toStr w.displays = [] →
      (process_event (.display_removed r) w).1.focused = w.focused) := by
  constructor
  · intro hf hne
    show (applyDisplayRemoved r w).focused ∈ _
    unfold applyDisplayRemoved
    rcases hds : eraseKey r.toStr w.displays with _ | ⟨p, rest⟩
    · exact absurd hds hne
    · simp [ensure_display_items, hf, hds]
  · intro hds
    show (applyDisplayRemoved r w).focused = w.focused
    unfold applyDisplayRemoved
    by_cases hf : w.focused = r.toStr <;> simp [ensure_display_items, hf, hds]

/-- Witness for `display_removed_focus_fallback`: a two-display state where
the focused display "1" is removed and focus falls back to "2", plus the
empty-remainder case on `c6state`. -/
theorem display_removed_focus_fallback_witness :
    ((process_event (.display_removed (.str "1"))
        { c6state with displays := [("1", ⟨0⟩), ("2", ⟨0⟩)] }).1.focused ∈
      (eraseKey "1" ([("1", (⟨0⟩ : DInfo)), ("2", ⟨0⟩)])).map Prod.fst)
    ∧ (process_event (.display_removed (.str "1")) c6state).1.focused =
        c6state.focused :=
  ⟨(display_removed_focus_fallback
      { c6state with displays := [("1", ⟨0⟩), ("2", ⟨0⟩)] } (.str "1")).1
      (by decide) (by decide),
   (display_removed_focus_fallback c6state (.str "1")).2 (by decide)⟩

/-! ## Structural lemmas about the slot assignor -/

/-- The keys of a zip form a sublist of the first input. -/
theorem zip_map_fst_sublist {α β : Type} :
    ∀ (l1 : List α) (l2 : List β), List.Sublist ((l1.zip l2).map Prod.fst) l1
  | [], _ => by simp
  | _ :: _, [] => by simp
  | a :: l1, b :: l2 => by
    simpa using (zip_map_fst_sublist l1 l2).cons₂ a

/-- The values of a zip form a sublist of the second input. -/
theorem zip_map_snd_sublist {α β : Type} :
    ∀ (l1 : List α) (l2 : List β), List.Sublist ((l1.zip l2).map Prod.snd) l2
  | [], _ => by simp
  | _ :: _, [] => by simp
  | a :: l1, b :: l2 => by
    simpa using (zip_map_snd_sublist l1 l2).cons₂ b

/-- When the first list is at most as long, zipping keeps it whole. -/
theorem zip_fst_of_le {α β : Type} :
    ∀ (l1 : List α) (l2 : List β), l1.length ≤ l2.length →
      (l1.zip l2).map Prod.fst = l1
  | [], _, _ => rfl
  | a :: l1, [], h => by simp at h
  | a :: l1, b :: l2, h => by
    simp only [List.zip_cons_cons, List.map_cons, List.cons.injEq, true_and]
    exact zip_fst_of_le l1 l2 (Nat.le_of_succ_le_succ h)

/-- When the second list is at most as long, zipping keeps it whole. -/
theorem zip_snd_of_le {α β : Type} :
    ∀ (l1 : List α) (l2 : List β), l2.length ≤ l1.length →
      (l1.zip l2).map Prod.snd = l2
  | [], [], _ => rfl
  | [], b :: l2, h => by simp at h
  | a :: l1, [], h => rfl
  | a :: l1, b :: l2, h => by
    simp only [List.zip_cons_cons, List.map_cons, List.cons.injEq, true_and]
    exact zip_snd_of_le l1 l2 (Nat.le_of_succ_le_succ h)

/-- Pruning is a sublist of the original assignment. -/
theorem liveMappings_sublist (current : List String)
    (a : List (Nat × String)) : List.Sublist (liveMappings current a) a :=
  List.filter_sublist a

/-- Free slots are pairwise distinct. -/
theorem freeSlots_nodup (a1 : List (Nat × String)) : (freeSlots a1).Nodup :=
  (List.nodup_range' 1 MAX_DISPLAYS).filter _

/-- A free slot is not a key of the pruned assignment. -/
theorem mem_freeSlots {a1 : List (Nat × String)} {s : Nat}
    (h : s ∈ freeSlots a1) : s ∉ a1.map Prod.fst := by
  have := (List.mem_filter.mp h).2
  simpa using this

/-- Membership in the sorted unassigned-display list. -/
theorem mem_todoDisplays {current : List String} {a1 : List (Nat × String)}
    {d : String} :
    d ∈ todoDisplays current a1 ↔ d ∈ current ∧ d ∉ a1.map Prod.snd := by
  unfold todoDisplays
  rw [List.mem_insertionSort]
  simp [List.mem_filter]

/-- The unassigned-display list has no duplicates when the live display
list has none. -/
theorem todoDisplays_nodup {current : List String} (a1 : List (Nat × String))
    (h : current.Nodup) : (todoDisplays current a1).Nodup := by
  unfold todoDisplays
  rw [List.Perm.nodup_iff (List.perm_insertionSort _ _)]
  exact h.filter _

/-- `assign_slots` preserves distinctness of slots and of displays: given
pairwise-distinct live display identities and a duplicate-free incoming
assignment, the outgoing assignment has pairwise-distinct slot keys and
pairwise-distinct display values. -/
theorem assign_slots_nodup (ds : Dict DInfo) (a : List (Nat × String))
    (hd : (ds.map Prod.fst).Nodup)
    (hk : (a.map Prod.fst).Nodup) (hv : (a.map Prod.snd).Nodup) :
    ((assign_slots ds a).map Prod.fst).Nodup ∧
      ((assign_slots ds a).map Prod.snd).Nodup := by
  have hk1 : ((liveMappings (ds.map Prod.fst) a).map Prod.fst).Nodup :=
    List.Nodup.sublist ((liveMappings_sublist _ a).map Prod.fst) hk
  have hv1 : ((liveMappings (ds.map Prod.fst) a).map Prod.snd).Nodup :=
    List.Nodup.sublist ((liveMappings_sublist _ a).map Prod.snd) hv
  constructor
  · show ((liveMappings (ds.map Prod.fst) a
        ++ (freeSlots _).zip (todoDisplays _ _)).map Prod.fst).Nodup
    rw [List.map_append]
    refine List.Nodup.append hk1
      (List.Nodup.sublist (zip_map_fst_sublist _ _) (freeSlots_nodup _)) ?_
    intro x hx1 hx2
    exact mem_freeSlots ((zip_map_fst_sublist _ _).subset hx2) hx1
  · show ((liveMappings (ds.map Prod.fst) a
        ++ (freeSlots _).zip (todoDisplays _ _)).map Prod.snd).Nodup
    rw [List.map_append]
    refine List.Nodup.append hv1
      (List.Nodup.sublist (zip_map_snd_sublist _ _)
        (todoDisplays_nodup _ hd)) ?_
    intro x hx1 hx2
    exact (mem_todoDisplays.mp
      ((zip_map_snd_sublist _ _).subset hx2)).2 hx1

/-- Python dict assignment never duplicates a key. -/
theorem upsert_keys_nodup {α : Type} (k : String) (v : α) (m : Dict α)
    (h : (m.map Prod.fst).Nodup) : ((upsert k v m).map Prod.fst).Nodup := by
  by_cases hmem : k ∈ m.map Prod.fst
  · have heq : (upsert k v m).map Prod.fst = m.map Prod.fst := by
      simp only [upsert, if_pos hmem, List.map_map]
      refine List.map_congr_left ?_
      intro p _
      by_cases hp : p.1 = k <;> simp [hp, Function.comp]
    rw [heq]; exact h
  · simp only [upsert, if_neg hmem, List.map_append]
    refine List.Nodup.append h (by simp) ?_
    intro x hx1 hx2
    simp only [List.map_cons, List.map_nil, List.mem_singleton] at hx2
    subst hx2
    exact hmem hx1

/-- Deleting a key keeps the remaining keys pairwise distinct. -/
theorem eraseKey_keys_nodup {α : Type} (k : String) (m : Dict α)
    (h : (m.map Prod.fst).Nodup) : ((eraseKey k m).map Prod.fst).Nodup :=
  List.Nodup.sublist ((List.filter_sublist m).map Prod.fst) h

/-- `ensure_display_items` only mutates the rendering bookkeeping; the
world-model fields and the slot assignment pass through unchanged. -/
theorem ensure_preserves (w : World) :
    (ensure_display_items w).1.displays = w.displays ∧
      (ensure_display_items w).1.windows = w.windows ∧
      (ensure_display_items w).1.focused = w.focused ∧
      (ensure_display_items w).1.slot_assignment = w.slot_assignment :=
  ⟨rfl, rfl, rfl, rfl⟩

/-- The `display_added`/`display_updated` branch preserves `WF`. -/
theorem applyDisplayUpsert_WF (d : SnapDisplay) (f : Bool) (w : World)
    (h : WF w) : WF (applyDisplayUpsert d f w) := by
  obtain ⟨hd, hk, hv⟩ := h
  have hd' : ((upsert d.id.toStr ⟨d.visible_tags⟩ w.displays).map Prod.fst).Nodup :=
    upsert_keys_nodup _ _ _ hd
  have hs := assign_slots_nodup
    (upsert d.id.toStr ⟨d.visible_tags⟩ w.displays) w.slot_assignment hd' hk hv
  unfold applyDisplayUpsert
  cases f <;> exact ⟨hd', hs.1, hs.2⟩

/-- The `display_removed` branch preserves `WF`. -/
theorem applyDisplayRemoved_WF (r : JId) (w : World) (h : WF w) :
    WF (applyDisplayRemoved r w) := by
  obtain ⟨hd, hk, hv⟩ := h
  have hd' : ((eraseKey r.toStr w.displays).map Prod.fst).Nodup :=
    eraseKey_keys_nodup _ _ hd
  have hs := assign_slots_nodup (eraseKey r.toStr w.displays)
    w.slot_assignment hd' hk hv
  unfold applyDisplayRemoved
  exact ⟨hd', hs.1, hs.2⟩

/-- Every event preserves `WF`. -/
theorem process_event_WF (e : Event) (w : World) (h : WF w) :
    WF (process_event e w).1 := by
  obtain ⟨hd, hk, hv⟩ := h
  cases e with
  | tags_changed did vt =>
    by_cases hmem : did.toStr ∈ w.displays.map Prod.fst
    · simp only [process_event, if_pos hmem]
      exact ⟨upsert_keys_nodup _ _ _ hd, hk, hv⟩
    · simp only [process_event, if_neg hmem]
      exact ⟨hd, hk, hv⟩
  | display_focused did => exact ⟨hd, hk, hv⟩
  | window_created wi => exact ⟨hd, hk, hv⟩
  | window_updated wi => exact ⟨hd, hk, hv⟩
  | window_destroyed wid => exact ⟨hd, hk, hv⟩
  | display_added d f => exact applyDisplayUpsert_WF d f w ⟨hd, hk, hv⟩
  | display_updated d f => exact applyDisplayUpsert_WF d f w ⟨hd, hk, hv⟩
  | display_removed r => exact applyDisplayRemoved_WF r w ⟨hd, hk, hv⟩
  | other => exact ⟨hd, hk, hv⟩

/-- `WF` holds along any event sequence from a well-formed start. -/
theorem applyEvents_WF (es : List Event) (w : World) (h : WF w) :
    WF (applyEvents es w) := by
  induction es generalizing w with
  | nil => exact h
  | cons e es ih => exact ih _ (process_event_WF e w h)

/-! ## C1: injectivity of the slot assignment -/

/-- C1: after any sequence of events applied to a fresh session state — in
particular any sequence of `display_added`/`display_removed` events — the
slot assignment maps pairwise-distinct slots to pairwise-distinct display
identities: no two slots share a display. -/
theorem slot_assignment_injective (es : List Event) :
    ((applyEvents es initState).slot_assignment.map Prod.fst).Nodup ∧
      ((applyEvents es initState).slot_assignment.map Prod.snd).Nodup :=
  ⟨(applyEvents_WF es initState ⟨List.nodup_nil, List.nodup_nil, List.nodup_nil⟩).2.1,
   (applyEvents_WF es initState ⟨List.nodup_nil, List.nodup_nil, List.nodup_nil⟩).2.2⟩

/-! ## C8: idempotence of assign_slots -/

/-- C8: re-running `assign_slots` immediately, with the same set of live
displays, changes nothing: pruning keeps every (live) mapping, and after
the first pass either every unassigned display got a slot or every free
slot was consumed, so the pairing loop of the second pass pairs nothing. -/
theorem assign_slots_idempotent (ds : Dict DInfo) (a : List (Nat × String)) :
    assign_slots ds (assign_slots ds a) = assign_slots ds a := by
  set current := ds.map Prod.fst with hcur
  set a1 := liveMappings current a with ha1
  set free := freeSlots a1 with hfree
  set todo := todoDisplays current a1 with htodo
  have hA : assign_slots ds a = a1 ++ free.zip todo := rfl
  have hlive : ∀ p ∈ a1 ++ free.zip todo, (decide (p.2 ∈ current)) = true := by
    intro p hp
    rcases List.mem_append.mp hp with h | h
    · exact (List.mem_filter.mp h).2
    · have h2 : p.2 ∈ todo :=
        (zip_map_snd_sublist free todo).subset (List.mem_map_of_mem Prod.snd h)
      simp [(mem_todoDisplays.mp h2).1]
  have h1 : liveMappings current (a1 ++ free.zip todo) = a1 ++ free.zip todo :=
    List.filter_eq_self.mpr hlive
  rw [hA]
  show liveMappings current (a1 ++ free.zip todo)
      ++ (freeSlots (liveMappings current (a1 ++ free.zip todo))).zip
        (todoDisplays current (liveMappings current (a1 ++ free.zip todo)))
    = a1 ++ free.zip todo
  rw [h1, List.append_right_eq_self]
  by_cases hlen : todo.length ≤ free.length
  · have hsnd : (free.zip todo).map Prod.snd = todo := zip_snd_of_le free todo hlen
    have htodo' : todoDisplays current (a1 ++ free.zip todo) = [] := by
      unfold todoDisplays
      have hnil :
          current.filter
            (fun d => decide (d ∉ (a1 ++ free.zip todo).map Prod.snd)) = [] := by
        rw [List.filter_eq_nil_iff]
        intro d hd
        simp only [List.map_append, hsnd, decide_eq_true_eq, not_not]
        by_cases hda : d ∈ a1.map Prod.snd
        · exact List.mem_append_left _ hda
        · exact List.mem_append_right _ (mem_todoDisplays.mpr ⟨hd, hda⟩)
      rw [hnil]
      rfl
    rw [htodo', List.zip_nil_right]
  · have hle : free.length ≤ todo.length := Nat.le_of_lt (Nat.lt_of_not_le hlen)
    have hfst : (free.zip todo).map Prod.fst = free := zip_fst_of_le free todo hle
    have hfree' : freeSlots (a1 ++ free.zip todo) = [] := by
      unfold freeSlots
      rw [List.filter_eq_nil_iff]
      intro s hs
      simp only [List.map_append, hfst, decide_eq_true_eq, not_not]
      by_cases hsa : s ∈ a1.map Prod.fst
      · exact List.mem_append_left _ hsa
      · refine List.mem_append_right _ ?_
        rw [hfree]
        unfold freeSlots
        exact List.mem_filter.mpr ⟨hs, by simpa using hsa⟩
    rw [hfree', List.zip_nil_left]

/-! ## C3: stickiness of assign_slots -/

/-- C3: `assign_slots` is sticky.  First conjunct: any mapping whose
display is still live survives a reassignment unchanged (only slots whose
display vanished are freed).  Remaining conjuncts: the concrete scenario —
displays A and B occupy slots 1 and 2; removing B frees slot 2 only;
adding new display C hands C the lowest free slot 2; re-adding B gives B
the next free slot 3, not its old slot 2. -/
theorem assign_slots_sticky :
    (∀ (ds : Dict DInfo) (a : List (Nat × String)) (slot : Nat) (did : String),
      (slot, did) ∈ a → did ∈ ds.map Prod.fst →
        (slot, did) ∈ assign_slots ds a)
    ∧ ((applyEvents [.display_added ⟨.str "A", 0⟩ false,
          .display_added ⟨.str "B", 0⟩ false] initState).slot_assignment
        = [(1, "A"), (2, "B")])
    ∧ ((applyEvents [.display_added ⟨.str "A", 0⟩ false,
          .display_added ⟨.str "B", 0⟩ false,
          .display_removed (.str "B")] initState).slot_assignment
        = [(1, "A")])
    ∧ ((applyEvents [.display_added ⟨.str "A", 0⟩ false,
          .display_added ⟨.str "B", 0⟩ false,
          .display_removed (.str "B"),
          .display_added ⟨.str "C", 0⟩ false] initState).slot_assignment
        = [(1, "A"), (2, "C")])
    ∧ ((applyEvents [.display_added ⟨.str "A", 0⟩ false,
          .display_added ⟨.str "B", 0⟩ false,
          .display_removed (.str "B"),
          .display_added ⟨.str "C", 0⟩ false,
          .display_added ⟨.str "B", 0⟩ false] initState).slot_assignment
        = [(1, "A"), (2, "C"), (3, "B")]) := by
  refine ⟨?_, by decide, by decide, by decide, by decide⟩
  intro ds a slot did hmem hlive
  exact List.mem_append_left _
    (List.mem_filter.mpr ⟨hmem, by simpa using hlive⟩)

/-- Witness for `assign_slots_sticky`: the preserved-mapping conjunct at a
concrete live mapping. -/
theorem assign_slots_sticky_witness :
    (1, "A") ∈ assign_slots [("A", ⟨0⟩)] [(1, "A")] :=
  assign_slots_sticky.1 [("A", ⟨0⟩)] [(1, "A")] 1 "A" (by decide) (by decide)

/-! ## C5: reconciliation ordering -/

/-- Membership in the ascending set model is plain membership. -/
theorem mem_natSetAsc {l : List Nat} {s : Nat} : s ∈ natSetAsc l ↔ s ∈ l := by
  unfold natSetAsc
  rw [List.mem_insertionSort, List.mem_dedup]

/-- Every command produced for a newly created slot is an `add` targeting
that slot. -/
theorem mem_slotAddCmds {s : Nat} {d : String} {c : Cmd}
    (h : c ∈ slotAddCmds s d) : c.isAdd = true ∧ c.slot = s := by
  unfold slotAddCmds at h
  rcases List.mem_append.mp h with h | h
  · rcases List.mem_append.mp h with h | h
    · rw [List.mem_singleton] at h
      subst h
      exact ⟨rfl, rfl⟩
    · rcases List.mem_flatten.mp h with ⟨l, hl, hc⟩
      rcases List.mem_map.mp hl with ⟨t, _, rfl⟩
      unfold tagAddCmds at hc
      simp only [List.mem_cons, List.not_mem_nil, or_false] at hc
      rcases hc with rfl | rfl | rfl | rfl | rfl | rfl <;> exact ⟨rfl, rfl⟩
  · split at h
    · simp only [List.mem_cons, List.not_mem_nil, or_false] at h
      rcases h with rfl | rfl | rfl <;> exact ⟨rfl, rfl⟩
    · simp at h

/-- C5 counterexample: on `c5state` the first command issued is the `add`
for entering slot 2 while the `remove` for departed slot 1 comes last —
adds are issued before removes, not after; and on `c5stale` a slot that
stays in the assignment key set produces no commands at all, so its
elements are not rebuilt for a new display. -/
theorem ensure_adds_issued_before_removes :
    ((ensure_display_items c5state).2.head?.map Cmd.isAdd = some true)
    ∧ (ensure_display_items c5state).2.getLast? = some (.remove 1 "ws.d1")
    ∧ (ensure_display_items c5stale).2 = [] := by
  refine ⟨?_, ?_, ?_⟩ <;> decide

/-- C5 amended: during one reconciliation pass `ensure_display_items`
issues all `add` commands for slots that entered the assignment first and
all `remove` commands for slots that left it after them; and a slot
present both in the previous rendered set and in the new assignment key
set is left untouched (no command targets it), even if it now maps to a
different display. -/
theorem ensure_adds_then_removes (w : World) :
    (∃ n, (((ensure_display_items w).2.take n).all Cmd.isAdd = true) ∧
        (((ensure_display_items w).2.drop n).all Cmd.isRemove = true))
    ∧ (∀ slot : Nat, slot ∈ w.slot_assignment.map Prod.fst →
        slot ∈ w.created_slots →
        ∀ c ∈ (ensure_display_items w).2, Cmd.slot c ≠ slot) := by
  set active := natSetAsc (w.slot_assignment.map Prod.fst) with hactive
  set newSlots := active.filter (fun s => decide (s ∉ w.created_slots))
    with hnew
  set adds := (newSlots.map
    (fun s => slotAddCmds s (slotDisplay s w.slot_assignment))).flatten
    with hadds
  set gone := w.created_slots.filter (fun s => decide (s ∉ active)) with hgone
  set removes := gone.map (fun s => Cmd.remove s ("ws.d" ++ toString s))
    with hremoves
  have hsplit : (ensure_display_items w).2 = adds ++ removes := rfl
  have haddmem : ∀ c ∈ adds, c.isAdd = true ∧ c.slot ∈ newSlots := by
    intro c hc
    rw [hadds] at hc
    rcases List.mem_flatten.mp hc with ⟨l, hl, hcl⟩
    rcases List.mem_map.mp hl with ⟨s, hs, rfl⟩
    obtain ⟨h1, h2⟩ := mem_slotAddCmds hcl
    exact ⟨h1, h2 ▸ hs⟩
  constructor
  · refine ⟨adds.length, ?_, ?_⟩
    · rw [hsplit, List.take_left, List.all_eq_true]
      exact fun c hc => (haddmem c hc).1
    · rw [hsplit, List.drop_left, List.all_eq_true]
      intro c hc
      rw [hremoves] at hc
      rcases List.mem_map.mp hc with ⟨s, _, rfl⟩
      rfl
  · intro slot hslot hcreated c hc heq
    rw [hsplit] at hc
    rcases List.mem_append.mp hc with h | h
    · have := (haddmem c h).2
      rw [heq, hnew] at this
      have hnot := (List.mem_filter.mp this).2
      simp only [decide_eq_true_eq] at hnot
      exact hnot hcreated
    · rw [hremoves] at h
      rcases List.mem_map.mp h with ⟨s, hs, rfl⟩
      rw [hgone] at hs
      have hnot := (List.mem_filter.mp hs).2
      simp only [decide_eq_true_eq] at hnot
      apply hnot
      rw [hactive, mem_natSetAsc]
      have hs' : s = slot := heq
      rw [hs']
      exact hslot

/-- Witness for `ensure_adds_then_removes` at the concrete states of the
counterexample. -/
theorem ensure_adds_then_removes_witness :
    (∃ n, (((ensure_display_items c5state).2.take n).all Cmd.isAdd = true) ∧
        (((ensure_display_items c5state).2.drop n).all Cmd.isRemove = true))
    ∧ (∀ c ∈ (ensure_display_items c5stale).2, Cmd.slot c ≠ 1) :=
  ⟨(ensure_adds_then_removes c5state).1,
   fun c hc => (ensure_adds_then_removes c5stale).2 1 (by decide) (by decide) c hc⟩

/-! ## C9: snapshot round-trip -/

/-- Splitting an event sequence splits the fold. -/
theorem applyEvents_append (l1 l2 : List Event) (w : World) :
    applyEvents (l1 ++ l2) w = applyEvents l2 (applyEvents l1 w) :=
  List.foldl_append ..

/-- A run of `window_destroyed` events erases exactly the named keys from
the windows dict and touches nothing else. -/
theorem applyEvents_destroy (ks : List String) (w : World) :
    applyEvents (ks.map (fun k => Event.window_destroyed (.str k))) w =
      { w with windows := ks.foldl (fun m k => eraseKey k m) w.windows } := by
  induction ks generalizing w with
  | nil => rfl
  | cons k ks ih =>
    show applyEvents (ks.map _)
      ((process_event (.window_destroyed (.str k)) w).1) = _
    rw [ih]
    rfl

/-- Left-folding key deletions filters out all the deleted keys. -/
theorem foldl_eraseKey_eq_filter {α : Type} (ks : List String) (m : Dict α) :
    ks.foldl (fun m k => eraseKey k m) m =
      m.filter (fun p => decide (p.1 ∉ ks)) := by
  induction ks generalizing m with
  | nil => simp
  | cons k ks ih =>
    rw [List.foldl_cons, ih]
    unfold eraseKey
    rw [List.filter_filter]
    apply List.filter_congr
    intro p _
    by_cases h1 : p.1 = k <;> by_cases h2 : p.1 ∈ ks <;> simp [h1, h2]

/-- Deleting every key of a dict empties it. -/
theorem foldl_eraseKey_self {α : Type} (m : Dict α) :
    (m.map Prod.fst).foldl (fun m k => eraseKey k m) m = [] := by
  rw [foldl_eraseKey_eq_filter]
  rw [List.filter_eq_nil_iff]
  intro p hp
  simp [List.mem_map_of_mem Prod.fst hp]

/-- A run of `display_removed` events erases exactly the named keys from
the displays dict and leaves the windows dict alone. -/
theorem applyEvents_remove_displays (ks : List String) (w : World) :
    (applyEvents (ks.map (fun k => Event.display_removed (.str k))) w).displays =
      ks.foldl (fun m k => eraseKey k m) w.displays ∧
    (applyEvents (ks.map (fun k => Event.display_removed (.str k))) w).windows =
      w.windows := by
  induction ks generalizing w with
  | nil => exact ⟨rfl, rfl⟩
  | cons k ks ih =>
    constructor
    · show (applyEvents (ks.map _)
        ((process_event (.display_removed (.str k)) w).1)).displays = _
      rw [(ih _).1]
      rfl
    · show (applyEvents (ks.map _)
        ((process_event (.display_removed (.str k)) w).1)).windows = _
      rw [(ih _).2]
      rfl

/-- A run of `display_added` events (without the focus flag) upserts
exactly the given display records and leaves windows and focus alone. -/
theorem applyEvents_add_displays (ds : List SnapDisplay) (w : World) :
    (applyEvents (ds.map (fun d => Event.display_added d false)) w).displays =
      ds.foldl (fun m d => upsert d.id.toStr ⟨d.visible_tags⟩ m) w.displays ∧
    (applyEvents (ds.map (fun d => Event.display_added d false)) w).windows =
      w.windows := by
  induction ds generalizing w with
  | nil => exact ⟨rfl, rfl⟩
  | cons d ds ih =>
    constructor
    · show (applyEvents (ds.map _)
        ((process_event (.display_added d false) w).1)).displays = _
      rw [(ih _).1]
      rfl
    · show (applyEvents (ds.map _)
        ((process_event (.display_added d false) w).1)).windows = _
      rw [(ih _).2]
      rfl

/-- A run of `window_created` events upserts exactly the given window
records and leaves displays and focus alone. -/
theorem applyEvents_create_windows (ws : List SnapWindow) (w : World) :
    (applyEvents (ws.map Event.window_created) w).windows =
      ws.foldl (fun m wi => upsert wi.id.toStr ⟨wi.tags, wi.output_id.toStr⟩ m)
        w.windows ∧
    (applyEvents (ws.map Event.window_created) w).displays = w.displays ∧
    (applyEvents (ws.map Event.window_created) w).focused = w.focused := by
  induction ws generalizing w with
  | nil => exact ⟨rfl, rfl, rfl⟩
  | cons wi ws ih =>
    refine ⟨?_, ?_, ?_⟩
    · show (applyEvents (ws.map _)
        ((process_event (.window_created wi) w).1)).windows = _
      rw [(ih _).1]
      rfl
    · show (applyEvents (ws.map _)
        ((process_event (.window_created wi) w).1)).displays = _
      rw [(ih _).2.1]
      rfl
    · show (applyEvents (ws.map _)
        ((process_event (.window_created wi) w).1)).focused = _
      rw [(ih _).2.2]
      rfl

/-- C9: applying snapshot `s1` and then the incremental event sequence
that reconstructs snapshot `s2` (destroy/remove everything, then re-add
`s2`'s displays and windows and refocus) yields exactly the same world
model — displays dict, windows dict and focused display, field for field —
as applying `s2` directly to a fresh session state. -/
theorem snapshot_roundtrip (s1 s2 : Snapshot) :
    (applyEvents (reconstructEvents (applySnapshotFull s1 initState) s2)
        (applySnapshotFull s1 initState)).displays =
      (applySnapshotFull s2 initState).displays ∧
    (applyEvents (reconstructEvents (applySnapshotFull s1 initState) s2)
        (applySnapshotFull s1 initState)).windows =
      (applySnapshotFull s2 initState).windows ∧
    (applyEvents (reconstructEvents (applySnapshotFull s1 initState) s2)
        (applySnapshotFull s1 initState)).focused =
      (applySnapshotFull s2 initState).focused := by
  set w1 := applySnapshotFull s1 initState with hw1
  unfold reconstructEvents
  rw [List.append_assoc, List.append_assoc, List.append_assoc]
  rw [applyEvents_append, applyEvents_destroy]
  set wA : World := { w1 with
    windows := (w1.windows.map Prod.fst).foldl (fun m k => eraseKey k m) w1.windows }
    with hwA
  have hAwin : wA.windows = [] := foldl_eraseKey_self w1.windows
  rw [applyEvents_append]
  set wB := applyEvents
      ((w1.displays.map Prod.fst).map (fun k => Event.display_removed (.str k))) wA
    with hwB
  have hBdis : wB.displays = [] := by
    rw [hwB, (applyEvents_remove_displays _ wA).1]
    exact foldl_eraseKey_self w1.displays
  have hBwin : wB.windows = [] := by
    rw [hwB, (applyEvents_remove_displays _ wA).2, hAwin]
  rw [applyEvents_append]
  set wC := applyEvents (s2.displays.map (fun d => Event.display_added d false)) wB
    with hwC
  have hCdis : wC.displays =
      s2.displays.foldl (fun m d => upsert d.id.toStr ⟨d.visible_tags⟩ m) [] := by
    rw [hwC, (applyEvents_add_displays s2.displays wB).1, hBdis]
  have hCwin : wC.windows = [] := by
    rw [hwC, (applyEvents_add_displays s2.displays wB).2, hBwin]
  rw [applyEvents_append]
  set wD := applyEvents (s2.windows.map Event.window_created) wC with hwD
  have hDwin : wD.windows =
      s2.windows.foldl
        (fun m wi => upsert wi.id.toStr ⟨wi.tags, wi.output_id.toStr⟩ m) [] := by
    rw [hwD, (applyEvents_create_windows s2.windows wC).1, hCwin]
  have hDdis : wD.displays = wC.displays :=
    (applyEvents_create_windows s2.windows wC).2.1
  refine ⟨?_, ?_, ?_⟩
  · show (applyEvents [Event.display_focused s2.focused_display_id] wD).displays = _
    have : (applyEvents [Event.display_focused s2.focused_display_id] wD).displays
        = wD.displays := rfl
    rw [this, hDdis, hCdis]
    rfl
  · show (applyEvents [Event.display_focused s2.focused_display_id] wD).windows = _
    have : (applyEvents [Event.display_focused s2.focused_display_id] wD).windows
        = wD.windows := rfl
    rw [this, hDwin]
    rfl
  · show (applyEvents [Event.display_focused s2.focused_display_id] wD).focused = _
    rfl
